import Mathlib

/-!
Verification development for the file-upload processing subsystem of the
repository: the extension gatekeeper (`upload-middleware.js`), the ZIP
archive sandbox (`zip-processor.js`) and the extracted-text finalization
step of `file-processor.js`, shallowly embedded as executable Lean
definitions, together with theorems settling the frozen claims about them.

JavaScript strings are modelled as Lean `String` (length and substring in
characters; the sources only compare ASCII extension strings, where the
two notions of length coincide).  JavaScript numbers holding byte sizes
and counts are modelled as `Nat` (the sizes involved stay far below 2^53,
so no floating-point rounding is observable in the comparisons modelled
here; the `ratio > 100` test is modelled by the exact equivalent
`100 * compressed < uncompressed`, which agrees with the source for all
inputs whose sizes are exactly representable).
-/

/-! ## Constants (zip-processor.js lines 17-21, file-processor.js line 19) -/

def MAX_UNCOMPRESSED_SIZE : Nat := 50 * 1024 * 1024

def MAX_FILES_IN_ZIP : Nat := 100

def MAX_NESTING_DEPTH : Nat := 2

def MAX_EXTRACTED_TEXT_LENGTH : Nat := 50000

/-! ## Extension sets

`Set` objects of extension strings in the source; modelled as lists with
membership.  Order follows the source insertion order. -/

/-- zip-processor.js lines 24-27: extensions that abort the whole ZIP. -/
def DANGEROUS_EXTENSIONS : List String :=
  [".exe", ".dll", ".so", ".dylib", ".bat", ".cmd", ".app",
   ".msi", ".deb", ".rpm", ".jar", ".scr", ".vbs", ".apk", ".ipa"]

/-- upload-middleware.js lines 24-53: the upload allow-list. -/
def ALLOWED_EXTENSIONS : List String :=
  [".txt", ".md", ".rtf",
   ".pdf",
   ".docx", ".doc",
   ".xlsx", ".xls",
   ".pptx", ".ppt",
   ".odt", ".ods", ".odp",
   ".csv", ".tsv",
   ".py", ".js", ".ts", ".java", ".kt", ".cpp", ".c", ".h", ".cs",
   ".go", ".rs", ".rb", ".php", ".swift", ".r", ".sql", ".scala",
   ".sh", ".ps1",
   ".json", ".jsonl", ".xml", ".yaml", ".yml", ".toml", ".ini", ".cfg",
   ".ipynb", ".pbix", ".rmd", ".parquet",
   ".html", ".htm", ".css", ".scss", ".sass", ".jsx", ".tsx", ".vue", ".svelte",
   ".tex", ".rst", ".adoc",
   ".zip"]

/-- upload-middleware.js lines 56-60: the upload deny-list (blocked extensions). -/
def BLOCKED_EXTENSIONS : List String :=
  [".exe", ".dll", ".so", ".dylib", ".bat", ".cmd", ".app",
   ".msi", ".deb", ".rpm", ".jar", ".scr", ".vbs", ".apk", ".ipa",
   ".env"]

/-- zip-processor.js lines 169-173: extensions extracted directly as UTF-8
text by `processZipEntry`. -/
def textExtensions : List String :=
  [".txt", ".md", ".json", ".xml", ".yaml", ".yml", ".csv", ".tsv",
   ".py", ".js", ".ts", ".java", ".cpp", ".c", ".h", ".cs", ".go",
   ".rs", ".rb", ".php", ".swift", ".sql", ".html", ".css", ".sh"]

/-! ## String helpers: node's `path.basename` / `path.extname` and
JavaScript `toLowerCase`, restricted to the behaviour the sources rely
on. -/

/-- Model of node `path.basename` (posix): the part of the path after the
last slash. -/
def jsBasename (s : String) : String :=
  String.mk ((s.toList.reverse.takeWhile (fun c => c ≠ '/')).reverse)

/-- Model of node `path.extname` (posix): the suffix of the basename from
its last dot, or the empty string when the basename has no dot, when its
only dot is the leading character (hidden files such as `.env`), or when
the basename is exactly `..`. -/
def jsExtname (s : String) : String :=
  let b := (jsBasename s).toList
  let suffix := b.reverse.takeWhile (fun c => c ≠ '.')
  if suffix.length = b.length then ""
  else if b.length - suffix.length - 1 = 0 then ""
  else if b = ['.', '.'] then ""
  else String.mk ('.' :: suffix.reverse)

/-- Model of JavaScript `String.prototype.toLowerCase`, adequate for the
ASCII extension strings compared by the sources. -/
def jsToLower (s : String) : String :=
  String.mk (s.toList.map Char.toLower)

/-- The idiom `path.extname(filename).toLowerCase()` used throughout the
sources. -/
def extLower (filename : String) : String :=
  jsToLower (jsExtname filename)

/-! ## Extension Gatekeeper (upload-middleware.js) -/

/-- upload-middleware.js lines 179-182: `isAllowedExtension`. -/
def isAllowedExtension (filename : String) : Bool :=
  let ext := extLower filename
  decide (ext ∈ ALLOWED_EXTENSIONS) && !decide (ext ∈ BLOCKED_EXTENSIONS)

/-- Outcome of the multer `fileFilter` callback: `cb(null, true)` accepts,
`cb(new Error(msg), false)` rejects with that message. -/
inductive FilterVerdict where
  | accept : FilterVerdict
  | reject (message : String) : FilterVerdict
deriving DecidableEq

/-- upload-middleware.js lines 96-110: `fileFilter`.  The blocked-list
check comes first, exactly as in the source. -/
def fileFilter (originalname : String) : FilterVerdict :=
  let ext := extLower originalname
  if ext ∈ BLOCKED_EXTENSIONS then
    .reject ("File type " ++ ext ++ " is not allowed for security reasons")
  else if ext ∉ ALLOWED_EXTENSIONS then
    .reject ("File type " ++ ext ++ " is not supported. Allowed types: "
      ++ String.intercalate ", " ALLOWED_EXTENSIONS)
  else
    .accept

/-! ## ZIP entries

An `AdmZip` entry.  `size` and `compressedSize` are the central-directory
header fields `entry.header.size` / `entry.header.compressedSize`.
`bytesText` is the UTF-8 decoding of `entry.getData()`.  An entry whose
bytes parse as a ZIP archive is built with `arch` (carrying its parsed
entry list); any other entry with `file`.  `new AdmZip` on bytes that are
not an archive throws, which the model reflects in the walk below. -/

inductive ZipEntry where
  | file (entryName : String) (isDirectory : Bool)
      (size compressedSize : Nat) (bytesText : String) : ZipEntry
  | arch (entryName : String) (isDirectory : Bool)
      (size compressedSize : Nat) (bytesText : String)
      (entries : List ZipEntry) : ZipEntry

def ZipEntry.entryName : ZipEntry → String
  | .file n _ _ _ _ => n
  | .arch n _ _ _ _ _ => n

def ZipEntry.isDirectory : ZipEntry → Bool
  | .file _ d _ _ _ => d
  | .arch _ d _ _ _ _ => d

def ZipEntry.size : ZipEntry → Nat
  | .file _ _ s _ _ => s
  | .arch _ _ s _ _ _ => s

def ZipEntry.compressedSize : ZipEntry → Nat
  | .file _ _ _ c _ => c
  | .arch _ _ _ c _ _ => c

def ZipEntry.bytesText : ZipEntry → String
  | .file _ _ _ _ t => t
  | .arch _ _ _ _ t _ => t

/-- Result record of `processZipFile`. -/
structure ZipResult where
  text : String
  filesProcessed : Nat
  warnings : List String
deriving DecidableEq

/-! ## Static security check (zip-processor.js lines 118-159) -/

/-- The accumulator loop of `validateZipSecurity`: walks the entries
keeping `fileCount`, `totalUncompressedSize` and `totalCompressedSize`,
returning the early-exit rejection reason, with the compression-ratio
check (`ratio > ZIP_BOMB_RATIO`, i.e. `100`) after the loop, evaluated
only when the compressed total is positive.  The source interpolates the
numeric ratio into the bomb message via `toFixed`; the model keeps the
fixed text of the message. -/
def validateLoop : List ZipEntry → Nat → Nat → Nat → Option String
  | [], _fileCount, totalU, totalC =>
      if 0 < totalC then
        if 100 * totalC < totalU then
          some "Suspicious compression ratio - possible zip bomb"
        else none
      else none
  | e :: rest, fileCount, totalU, totalC =>
      if e.isDirectory then validateLoop rest fileCount totalU totalC
      else
        let fc := fileCount + 1
        let tu := totalU + e.size
        let tc := totalC + e.compressedSize
        if MAX_FILES_IN_ZIP < fc then
          some "Too many files in ZIP (max 100)"
        else if MAX_UNCOMPRESSED_SIZE < tu then
          some "ZIP uncompressed size exceeds limit (50MB)"
        else validateLoop rest fc tu tc

/-- zip-processor.js lines 118-159: `validateZipSecurity`.  `none` is the
`safe: true` outcome; `some reason` the rejection. -/
def validateZipSecurity (entries : List ZipEntry) : Option String :=
  validateLoop entries 0 0 0

/-! ## Per-entry extraction (zip-processor.js lines 164-182) -/

/-- zip-processor.js lines 164-182: `processZipEntry`.  Text extensions
are decoded as UTF-8; every other (already allow-listed) extension yields
the placeholder string, not a format-specific extraction. -/
def processZipEntry (e : ZipEntry) : String :=
  let ext := extLower e.entryName
  if ext ∈ textExtensions then e.bytesText
  else "[Binary file: " ++ e.entryName ++ " - " ++ toString e.size ++ " bytes]"

/-! ## The archive walk (zip-processor.js lines 35-113)

`processLoop nestingLevel entries combinedText filesProcessed warnings`
is the `for` loop of `processZipFile`, with its three accumulators.  The
recursive call `processZipFile(tempPath, nestingLevel + 1)` of line 85 is
the mutual partner `processNestedZip`, whose body is exactly the body of
`processZipFile` applied to the nested entry's bytes (the lemma
`processNestedZip_arch_eq` below states that equality, which holds by
definitional unfolding).  A thrown JavaScript error is an
`Except.error`; the `try`/`catch` of lines 71-105 catches exactly the
errors of the nested call (including `new AdmZip` failing on bytes that
are not an archive, whose adm-zip message is
`Invalid or unsupported zip format. No END header found`) and records
them as a per-entry warning. -/

mutual

/-- `await processZipFile(tempPath, nestingLevel + 1)` at line 85, after
the nested entry's bytes have been written to `tempPath`: parsing the
bytes (`new AdmZip`), the depth guard, the static security check, then
the entry loop.  Called with the incremented nesting level. -/
def processNestedZip (nestingLevel : Nat) : ZipEntry → Except String ZipResult
  | .file _ _ _ _ _ =>
    .error "Invalid or unsupported zip format. No END header found"
  | .arch _ _ _ _ _ sub =>
    if MAX_NESTING_DEPTH < nestingLevel then
      .error "ZIP nesting too deep (max 2 levels)"
    else match validateZipSecurity sub with
      | some reason => .error reason
      | none => processLoop nestingLevel sub "" 0 []

/-- The `for` loop of `processZipFile` (lines 54-106), with accumulators
`combinedText`, `filesProcessed`, `warnings`. -/
def processLoop (nestingLevel : Nat) :
    List ZipEntry → String → Nat → List String → Except String ZipResult
  | [], t, n, w => .ok ⟨t, n, w⟩
  | e :: rest, t, n, w =>
    if e.isDirectory then processLoop nestingLevel rest t n w
    else
      let filename := e.entryName
      let ext := extLower filename
      if ext ∈ DANGEROUS_EXTENSIONS then
        .error ("ZIP contains dangerous file type: " ++ filename)
      else if !isAllowedExtension filename then
        processLoop nestingLevel rest t n
          (w ++ ["Skipped unsupported file: " ++ filename])
      else if ext = ".zip" then
        if MAX_NESTING_DEPTH ≤ nestingLevel then
          processLoop nestingLevel rest t n
            (w ++ ["Skipped nested ZIP (too deep): " ++ filename])
        else
          match processNestedZip (nestingLevel + 1) e with
          | .ok nested =>
            processLoop nestingLevel rest
              (t ++ "\n--- Nested ZIP: " ++ filename ++ " ---\n" ++ nested.text)
              (n + nested.filesProcessed)
              (w ++ nested.warnings)
          | .error msg =>
            processLoop nestingLevel rest t n
              (w ++ ["Failed to process " ++ filename ++ ": " ++ msg])
      else
        let content := processZipEntry e
        if content = "" then processLoop nestingLevel rest t n w
        else
          processLoop nestingLevel rest
            (t ++ "\n--- File: " ++ filename ++ " ---\n" ++ content ++ "\n")
            (n + 1) w

end

/-- zip-processor.js lines 35-113: `processZipFile`.  Depth guard, static
security check, then the entry loop. -/
def processZipFile (entries : List ZipEntry) (nestingLevel : Nat) :
    Except String ZipResult :=
  if MAX_NESTING_DEPTH < nestingLevel then
    .error "ZIP nesting too deep (max 2 levels)"
  else match validateZipSecurity entries with
    | some reason => .error reason
    | none => processLoop nestingLevel entries "" 0 []

/-- The mutual partner `processNestedZip` applied to an archive-shaped
entry is exactly `processZipFile` on its entries: the model's nested call
is the source's recursive call of line 85. -/
theorem processNestedZip_arch_eq (nestingLevel : Nat) (name : String)
    (dir : Bool) (size compressedSize : Nat) (bytesText : String)
    (sub : List ZipEntry) :
    processNestedZip nestingLevel
        (.arch name dir size compressedSize bytesText sub)
      = processZipFile sub nestingLevel := rfl

deriving instance DecidableEq for Except

/-! ## Entry statistics

The quantities accumulated by `validateZipSecurity` over one archive's
entry list, as plain sums. -/

def zipFileCount : List ZipEntry → Nat
  | [] => 0
  | e :: rest => (if e.isDirectory then 0 else 1) + zipFileCount rest

def zipUncompressedTotal : List ZipEntry → Nat
  | [] => 0
  | e :: rest => (if e.isDirectory then 0 else e.size) + zipUncompressedTotal rest

def zipCompressedTotal : List ZipEntry → Nat
  | [] => 0
  | e :: rest => (if e.isDirectory then 0 else e.compressedSize) + zipCompressedTotal rest

/-! ## Cumulative materialized bytes across the recursive expansion

`cumulativeList lvl entries` sums, over the whole recursive walk that
`processLoop lvl entries …` performs, the declared uncompressed size
(`entry.header.size` — the quantity the security accumulator tracks) of
every entry whose data the walk materializes with `entry.getData()`:
directory entries, unsupported-extension entries and depth-skipped
nested archives are never materialized; a dangerous-extension entry
aborts before materializing anything further; a nested archive's own
bytes are materialized before it is parsed, and its contents are walked
only when its own static security check passes.  This is the
"cumulative uncompressed bytes materialized across the entire recursive
expansion, summed over the outer archive and every nested archive" of
the specification's claimed budget invariant. -/

mutual

def cumulativeNested (nestingLevel : Nat) : ZipEntry → Nat
  | .file _ _ _ _ _ => 0
  | .arch _ _ _ _ _ sub =>
    if MAX_NESTING_DEPTH < nestingLevel then 0
    else match validateZipSecurity sub with
      | some _ => 0
      | none => cumulativeList nestingLevel sub

def cumulativeList (nestingLevel : Nat) : List ZipEntry → Nat
  | [] => 0
  | e :: rest =>
    if e.isDirectory then cumulativeList nestingLevel rest
    else if extLower e.entryName ∈ DANGEROUS_EXTENSIONS then 0
    else if !isAllowedExtension e.entryName then cumulativeList nestingLevel rest
    else if extLower e.entryName = ".zip" then
      if MAX_NESTING_DEPTH ≤ nestingLevel then cumulativeList nestingLevel rest
      else e.size + cumulativeNested (nestingLevel + 1) e
        + cumulativeList nestingLevel rest
    else e.size + cumulativeList nestingLevel rest

end

/-! ## Extracted-text finalization (file-processor.js lines 126-134)

The step applied by `processFile` to the text produced by whichever
extractor ran: truncation to `MAX_EXTRACTED_TEXT_LENGTH` and the final
metadata fields.  In the source, `metadata.truncated` and
`metadata.originalLength` are absent unless the truncation branch runs;
modelled as `false` / `none`.  JavaScript `text.substring(0, N)` is the
first `N` characters.  Note the source assigns
`metadata.originalLength = text.length` only after `text` has been
reassigned to its truncated value; the model preserves that order of
effects. -/

structure FileMetadata where
  truncated : Bool
  originalLength : Option Nat
  extractedLength : Nat
deriving DecidableEq

structure ProcessedFile where
  text : String
  metadata : FileMetadata
deriving DecidableEq

def finalizeExtractedText (text : String) : ProcessedFile :=
  if MAX_EXTRACTED_TEXT_LENGTH < text.length then
    let truncatedText := String.mk (text.toList.take MAX_EXTRACTED_TEXT_LENGTH)
    { text := truncatedText,
      metadata :=
        { truncated := true,
          originalLength := some truncatedText.length,
          extractedLength := truncatedText.length } }
  else
    { text := text,
      metadata :=
        { truncated := false,
          originalLength := none,
          extractedLength := text.length } }

/-! ## Characterization of the static security check -/

/-- The accumulator loop of `validateZipSecurity` accepts exactly when
the final tallies stay within the ceilings (its in-loop early exits are
equivalent to the bounds on the final tallies, because the tallies only
grow), with the ratio condition evaluated on the final totals only when
the compressed total is positive. -/
theorem validateLoop_none_iff (es : List ZipEntry) :
    ∀ (fc tu tc : Nat), fc ≤ MAX_FILES_IN_ZIP → tu ≤ MAX_UNCOMPRESSED_SIZE →
    (validateLoop es fc tu tc = none ↔
      fc + zipFileCount es ≤ MAX_FILES_IN_ZIP ∧
      tu + zipUncompressedTotal es ≤ MAX_UNCOMPRESSED_SIZE ∧
      (0 < tc + zipCompressedTotal es →
        tu + zipUncompressedTotal es ≤ 100 * (tc + zipCompressedTotal es))) := by
  induction es with
  | nil =>
    intro fc tu tc hfc htu
    simp only [validateLoop, zipFileCount, zipUncompressedTotal, zipCompressedTotal,
      Nat.add_zero]
    split_ifs with h1 h2 <;> simp <;> omega
  | cons e rest ih =>
    intro fc tu tc hfc htu
    cases hd : e.isDirectory with
    | true =>
      simp only [validateLoop, zipFileCount, zipUncompressedTotal, zipCompressedTotal, hd]
      simpa using ih fc tu tc hfc htu
    | false =>
      simp only [validateLoop, zipFileCount, zipUncompressedTotal, zipCompressedTotal, hd,
        Bool.false_eq_true, if_false]
      split_ifs with h1 h2
      · simp only [reduceCtorEq, false_iff]
        intro hcon
        omega
      · simp only [reduceCtorEq, false_iff]
        intro hcon
        omega
      · rw [ih (fc + 1) (tu + e.size) (tc + e.compressedSize) (by omega) (by omega)]
        omega

/-- Claim C4: the static security check of `expandArchive` rejects an
archive exactly when a ceiling is violated — it rejects when the
non-directory file count exceeds 100, or when the summed uncompressed
size exceeds 50 MiB, or when the compressed total is positive and the
uncompressed total is more than 100 times the compressed total; an
archive within all three bounds passes, and when the compressed total is
zero the ratio condition imposes no constraint at all. -/
theorem validateZipSecurity_none_iff (entries : List ZipEntry) :
    validateZipSecurity entries = none ↔
      zipFileCount entries ≤ MAX_FILES_IN_ZIP ∧
      zipUncompressedTotal entries ≤ MAX_UNCOMPRESSED_SIZE ∧
      (0 < zipCompressedTotal entries →
        zipUncompressedTotal entries ≤ 100 * zipCompressedTotal entries) := by
  have := validateLoop_none_iff entries 0 0 0 (Nat.zero_le _) (Nat.zero_le _)
  simpa [validateZipSecurity] using this

/-! ## Claim C1: the 50 MiB ceiling is per archive, not cumulative -/

/-- An upload in which every individual archive passes the static
security check (outer: two entries totalling 2 MiB declared; each nested
archive: one 30 MiB entry; all ratios 1:1) while the recursive expansion
as a whole materializes 62 MiB of declared uncompressed bytes. -/
def overBudgetUpload : List ZipEntry :=
  [.arch "a.zip" false (1024 * 1024) (1024 * 1024) "PK"
     [.file "data.txt" false (30 * 1024 * 1024) (30 * 1024 * 1024) "x"],
   .arch "b.zip" false (1024 * 1024) (1024 * 1024) "PK"
     [.file "data.txt" false (30 * 1024 * 1024) (30 * 1024 * 1024) "x"]]

/-- Claim C1 counterexample: on `overBudgetUpload` the whole expansion
succeeds with no error and no warning, yet the cumulative uncompressed
bytes materialized across the outer archive and both nested archives
exceed `MAX_UNCOMPRESSED_SIZE` — no budget is threaded through the
recursion, so the claimed cumulative invariant fails. -/
theorem cumulative_budget_exceeded :
    processZipFile overBudgetUpload 0
      = .ok ⟨"\n--- Nested ZIP: a.zip ---\n\n--- File: data.txt ---\nx\n"
              ++ "\n--- Nested ZIP: b.zip ---\n\n--- File: data.txt ---\nx\n", 2, []⟩
    ∧ MAX_UNCOMPRESSED_SIZE < cumulativeList 0 overBudgetUpload :=
  ⟨by decide, by decide⟩

/-- Claim C1 amended: the 50 MiB uncompressed-size ceiling is enforced
per archive — every archive whose expansion returns a result (at any
nesting level) has its own summed declared uncompressed size within
`MAX_UNCOMPRESSED_SIZE` — but only the nesting level is threaded through
the recursive calls, so the bound holds for each `expandArchive`
invocation separately and not for the cumulative total of the whole
upload. -/
theorem processZipFile_ok_perArchive_bound (entries : List ZipEntry)
    (nestingLevel : Nat) (r : ZipResult)
    (h : processZipFile entries nestingLevel = .ok r) :
    zipUncompressedTotal entries ≤ MAX_UNCOMPRESSED_SIZE := by
  cases hv : validateZipSecurity entries with
  | none => exact ((validateZipSecurity_none_iff entries).mp hv).2.1
  | some reason =>
    exfalso
    simp only [processZipFile, hv] at h
    split_ifs at h

theorem processZipFile_ok_perArchive_bound_witness :
    processZipFile [ZipEntry.file "a.txt" false 5 5 "hello"] 0
        = .ok ⟨"\n--- File: a.txt ---\nhello\n", 1, []⟩
    ∧ zipUncompressedTotal [ZipEntry.file "a.txt" false 5 5 "hello"]
        ≤ MAX_UNCOMPRESSED_SIZE :=
  ⟨by decide,
    processZipFile_ok_perArchive_bound _ 0
      ⟨"\n--- File: a.txt ---\nhello\n", 1, []⟩ (by decide)⟩

/-! ## Claim C2: where a structural violation aborts the upload -/

/-- An upload whose only entry is a nested archive containing a
disguised executable. -/
def nestedViolationUpload : List ZipEntry :=
  [.arch "inner.zip" false 10 10 "PK" [.file "evil.exe" false 5 5 "MZ"]]

/-- Claim C2 counterexample: the nested archive alone is rejected with
the dangerous-file error, but when that same archive is reached by
recursion from a top-level upload the error is caught by the per-entry
handler: the upload is not rejected — expansion returns ok, with the
violation reduced to a warning. -/
theorem nested_violation_not_fatal :
    processZipFile [ZipEntry.file "evil.exe" false 5 5 "MZ"] 1
        = .error "ZIP contains dangerous file type: evil.exe"
    ∧ processZipFile nestedViolationUpload 0
        = .ok ⟨"", 0,
            ["Failed to process inner.zip: ZIP contains dangerous file type: evil.exe"]⟩ :=
  ⟨by decide, by decide⟩

/-- Claim C2 amended: a structural ceiling violation reported by the
static security check of the archive currently being expanded aborts
that expansion with the error naming the ceiling that was exceeded; in
particular, at the top level the whole upload is rejected and no
extracted text is returned.  A violation arising inside a nested archive
aborts only the nested expansion: the error is caught by the per-entry
handler of the outer loop and recorded as a warning. -/
theorem processZipFile_validate_error (entries : List ZipEntry)
    (nestingLevel : Nat) (reason : String)
    (hlvl : nestingLevel ≤ MAX_NESTING_DEPTH)
    (h : validateZipSecurity entries = some reason) :
    processZipFile entries nestingLevel = .error reason := by
  simp only [processZipFile, h]
  rw [if_neg (by omega)]

theorem processZipFile_validate_error_witness :
    (0 ≤ MAX_NESTING_DEPTH
      ∧ validateZipSecurity (List.replicate 101 (ZipEntry.file "a.txt" false 1 1 "x"))
          = some "Too many files in ZIP (max 100)")
    ∧ processZipFile (List.replicate 101 (ZipEntry.file "a.txt" false 1 1 "x")) 0
        = .error "Too many files in ZIP (max 100)" :=
  ⟨⟨by decide, by decide⟩,
    processZipFile_validate_error _ 0 _ (by decide) (by decide)⟩

/-! ## Claim C3: which deny-list poisons an archive -/

/-- An upload pairing a valid text file with an environment-secret
file.  `.env` is on the upload middleware's blocked list (the
Gatekeeper's deny-list) but not on the zip processor's dangerous list. -/
def envPoisonedUpload : List ZipEntry :=
  [.file "notes.txt" false 5 5 "hello",
   .file "secrets.env" false 5 5 "KEY=1"]

/-- Claim C3 counterexample: `secrets.env` has a deny-listed extension,
yet the archive is not aborted — the entry is merely skipped with a
warning and the other entry's text is returned. -/
theorem env_entry_not_fatal :
    extLower "secrets.env" ∈ BLOCKED_EXTENSIONS
    ∧ processZipFile envPoisonedUpload 0
        = .ok ⟨"\n--- File: notes.txt ---\nhello\n", 1,
            ["Skipped unsupported file: secrets.env"]⟩ :=
  ⟨by decide, by decide⟩

/-- If some non-directory entry of the list has a dangerous extension,
the entry loop aborts with the dangerous-file error for such an entry,
whatever the accumulators hold. -/
theorem processLoop_dangerous (nestingLevel : Nat) :
    ∀ (es : List ZipEntry) (t : String) (n : Nat) (w : List String),
    (∃ e ∈ es, e.isDirectory = false ∧ extLower e.entryName ∈ DANGEROUS_EXTENSIONS) →
    ∃ f, processLoop nestingLevel es t n w
        = .error ("ZIP contains dangerous file type: " ++ f)
      ∧ ∃ e ∈ es, e.isDirectory = false ∧ e.entryName = f
          ∧ extLower f ∈ DANGEROUS_EXTENSIONS := by
  intro es
  induction es with
  | nil =>
    rintro t n w ⟨e, he, _⟩
    exact absurd he (List.not_mem_nil e)
  | cons e rest ih =>
    rintro t n w ⟨e₀, he₀, hnd₀, hdang₀⟩
    cases hd : e.isDirectory with
    | true =>
      have hrest : e₀ ∈ rest := by
        rcases List.mem_cons.mp he₀ with rfl | h
        · rw [hd] at hnd₀; cases hnd₀
        · exact h
      have push := ih t n w ⟨e₀, hrest, hnd₀, hdang₀⟩
      obtain ⟨f, hf, e', he', h1, h2, h3⟩ := push
      refine ⟨f, ?_, e', List.mem_cons_of_mem _ he', h1, h2, h3⟩
      simp only [processLoop, hd]
      exact hf
    | false =>
      by_cases hdang : extLower e.entryName ∈ DANGEROUS_EXTENSIONS
      · refine ⟨e.entryName, ?_, e, List.mem_cons_self _ _, hd, rfl, hdang⟩
        simp only [processLoop, hd, Bool.false_eq_true, if_false]
        rw [if_pos hdang]
      · have hrest : e₀ ∈ rest := by
          rcases List.mem_cons.mp he₀ with rfl | h
          · exact absurd hdang₀ hdang
          · exact h
        have push : ∀ (t' : String) (n' : Nat) (w' : List String),
            ∃ f, processLoop nestingLevel rest t' n' w'
                = .error ("ZIP contains dangerous file type: " ++ f)
              ∧ ∃ e' ∈ e :: rest, e'.isDirectory = false ∧ e'.entryName = f
                  ∧ extLower f ∈ DANGEROUS_EXTENSIONS := by
          intro t' n' w'
          obtain ⟨f, hf, e', he', h1, h2, h3⟩ := ih t' n' w' ⟨e₀, hrest, hnd₀, hdang₀⟩
          exact ⟨f, hf, e', List.mem_cons_of_mem _ he', h1, h2, h3⟩
        simp only [processLoop, hd, Bool.false_eq_true, if_false]
        rw [if_neg hdang]
        split_ifs with h1 h2 h3 h4
        · exact push _ _ _
        · exact push _ _ _
        · split
          · exact push _ _ _
          · exact push _ _ _
        · exact push _ _ _
        · exact push _ _ _

/-- Claim C3 amended: the deny-list that poisons a whole archive is the
zip processor's own dangerous-extension list (executables, shared
libraries, scripts, installers, Java archives, mobile packages — without
`.env`): any archive that passes the static check and contains, at its
own level, a non-directory entry with such an extension is aborted with
the dangerous-file error, so no partial text is returned for it; an
environment-secret (`.env`) entry does not abort the archive but is
skipped with a warning. -/
theorem processZipFile_dangerous_abort (entries : List ZipEntry)
    (nestingLevel : Nat)
    (hlvl : nestingLevel ≤ MAX_NESTING_DEPTH)
    (hval : validateZipSecurity entries = none)
    (hpoison : ∃ e ∈ entries, e.isDirectory = false
        ∧ extLower e.entryName ∈ DANGEROUS_EXTENSIONS) :
    ∃ f, processZipFile entries nestingLevel
        = .error ("ZIP contains dangerous file type: " ++ f)
      ∧ ∃ e ∈ entries, e.isDirectory = false ∧ e.entryName = f
          ∧ extLower f ∈ DANGEROUS_EXTENSIONS := by
  simp only [processZipFile, hval]
  rw [if_neg (by omega)]
  exact processLoop_dangerous nestingLevel entries "" 0 [] hpoison

theorem processZipFile_dangerous_abort_witness :
    (0 ≤ MAX_NESTING_DEPTH
      ∧ validateZipSecurity [ZipEntry.file "payload.exe" false 5 5 "MZ"] = none
      ∧ (∃ e ∈ [ZipEntry.file "payload.exe" false 5 5 "MZ"],
          e.isDirectory = false ∧ extLower e.entryName ∈ DANGEROUS_EXTENSIONS))
    ∧ (∃ f, processZipFile [ZipEntry.file "payload.exe" false 5 5 "MZ"] 0
          = .error ("ZIP contains dangerous file type: " ++ f)
        ∧ ∃ e ∈ [ZipEntry.file "payload.exe" false 5 5 "MZ"],
            e.isDirectory = false ∧ e.entryName = f
              ∧ extLower f ∈ DANGEROUS_EXTENSIONS) :=
  ⟨⟨by decide, by decide, by decide⟩,
    processZipFile_dangerous_abort _ 0 (by decide) (by decide) (by decide)⟩

/-! ## Claim C5: `originalLength` after truncation -/

/-- Claim C5 (code bug): on a 50,001-character text the code truncates
and sets `truncated`, but because `metadata.originalLength = text.length`
is executed only after `text` has been reassigned to its truncated
value, `originalLength` records the post-truncation length 50,000 — not
the pre-truncation length 50,001 that the specification (and the field's
own name) require. -/
theorem originalLength_records_postTruncation_length :
    (finalizeExtractedText (String.mk (List.replicate 50001 'a'))).metadata.truncated
        = true
    ∧ (finalizeExtractedText (String.mk (List.replicate 50001 'a'))).metadata.originalLength
        = some 50000
    ∧ (String.mk (List.replicate 50001 'a')).length = 50001 := by
  have hlen : (String.mk (List.replicate 50001 'a')).length = 50001 := by
    show (List.replicate 50001 'a').length = 50001
    exact List.length_replicate 50001 'a'
  have hcond : MAX_EXTRACTED_TEXT_LENGTH < (String.mk (List.replicate 50001 'a')).length := by
    rw [hlen]
    decide
  have htake :
      (String.mk ((String.mk (List.replicate 50001 'a')).toList.take
          MAX_EXTRACTED_TEXT_LENGTH)).length = 50000 := by
    show ((List.replicate 50001 'a').take MAX_EXTRACTED_TEXT_LENGTH).length = 50000
    rw [List.length_take, List.length_replicate]
    decide
  refine ⟨?_, ?_, hlen⟩
  · rw [finalizeExtractedText, if_pos hcond]
  · rw [finalizeExtractedText, if_pos hcond]
    exact congrArg some htake

/-! ## Claim C6: the returned text is bounded and `extractedLength`
matches it -/

/-- Claim C6: for every extracted text, the finalized `ProcessedFile`
has at most `MAX_EXTRACTED_TEXT_LENGTH` characters of text, and
`metadata.extractedLength` equals the length of the text actually
returned (the post-truncation length). -/
theorem finalize_bound_and_extractedLength (text : String) :
    (finalizeExtractedText text).text.length ≤ MAX_EXTRACTED_TEXT_LENGTH
    ∧ (finalizeExtractedText text).metadata.extractedLength
        = (finalizeExtractedText text).text.length := by
  by_cases h : MAX_EXTRACTED_TEXT_LENGTH < text.length
  · simp only [finalizeExtractedText, if_pos h]
    refine ⟨?_, trivial⟩
    show (text.toList.take MAX_EXTRACTED_TEXT_LENGTH).length ≤ MAX_EXTRACTED_TEXT_LENGTH
    rw [List.length_take]
    exact Nat.min_le_left _ _
  · simp only [finalizeExtractedText, if_neg h]
    exact ⟨by omega, trivial⟩

/-! ## Claim C7: depth-limited skipping of nested archives -/

/-- An upload with archives nested three levels deep: the outer upload
contains `level1.zip`, which contains `level2.zip`, which contains
`level3.zip`. -/
def threeLevelUpload : List ZipEntry :=
  [.arch "level1.zip" false 10 10 "PK"
    [.file "a1.txt" false 2 2 "A1",
     .arch "level2.zip" false 8 8 "PK"
       [.file "a2.txt" false 2 2 "A2",
        .arch "level3.zip" false 6 6 "PK"
          [.file "a3.txt" false 2 2 "A3"]]]]

/-- Claim C7: a nested-archive entry reached when the nesting level has
already hit `MAX_NESTING_DEPTH` is skipped with a warning and the walk
continues (not fatal to the outer archive); concretely, an upload with
archives nested three levels deep has its 3rd-level archive skipped with
the warning while levels 1 and 2 are fully processed. -/
theorem nested_zip_depth_skip :
    (∀ (nestingLevel : Nat) (e : ZipEntry) (rest : List ZipEntry)
        (t : String) (n : Nat) (w : List String),
      e.isDirectory = false → extLower e.entryName = ".zip" →
      MAX_NESTING_DEPTH ≤ nestingLevel →
      processLoop nestingLevel (e :: rest) t n w
        = processLoop nestingLevel rest t n
            (w ++ ["Skipped nested ZIP (too deep): " ++ e.entryName]))
    ∧ processZipFile threeLevelUpload 0
        = .ok ⟨"\n--- Nested ZIP: level1.zip ---\n\n--- File: a1.txt ---\nA1\n"
                ++ "\n--- Nested ZIP: level2.zip ---\n\n--- File: a2.txt ---\nA2\n", 2,
              ["Skipped nested ZIP (too deep): level3.zip"]⟩ := by
  constructor
  · intro nestingLevel e rest t n w hd hzip hdeep
    have hallow : isAllowedExtension e.entryName = true := by
      simp only [isAllowedExtension, hzip]
      decide
    simp only [processLoop, hd, Bool.false_eq_true, if_false]
    rw [if_neg (show extLower e.entryName ∈ DANGEROUS_EXTENSIONS → False by
      rw [hzip]; decide)]
    rw [if_neg (show ¬(!isAllowedExtension e.entryName) = true by
      rw [hallow]; decide)]
    rw [if_pos hzip, if_pos hdeep]
  · decide

theorem nested_zip_depth_skip_witness :
    ((ZipEntry.arch "deep.zip" false 4 4 "PK" []).isDirectory = false
      ∧ extLower (ZipEntry.arch "deep.zip" false 4 4 "PK" []).entryName = ".zip"
      ∧ MAX_NESTING_DEPTH ≤ 2)
    ∧ processLoop 2 [ZipEntry.arch "deep.zip" false 4 4 "PK" []] "" 0 []
        = processLoop 2 [] "" 0 ["Skipped nested ZIP (too deep): deep.zip"] :=
  ⟨⟨rfl, by decide, by decide⟩,
    nested_zip_depth_skip.1 2 _ [] "" 0 [] rfl (by decide) (by decide)⟩

/-! ## Claim C8: what is spliced for allow-listed non-archive entries -/

/-- Claim C8 counterexample: a `.pdf` entry inside an archive is not
dispatched to a format-specific extractor — whatever its bytes, the
spliced content is the fixed `[Binary file: …]` placeholder, so two
archives whose `.pdf` entries carry different documents produce the
identical result. -/
theorem pdf_entry_yields_placeholder :
    processZipFile [ZipEntry.file "doc.pdf" false 7 7 "PDFDATA-A"] 0
        = .ok ⟨"\n--- File: doc.pdf ---\n[Binary file: doc.pdf - 7 bytes]\n", 1, []⟩
    ∧ processZipFile [ZipEntry.file "doc.pdf" false 7 7 "PDFDATA-B"] 0
        = .ok ⟨"\n--- File: doc.pdf ---\n[Binary file: doc.pdf - 7 bytes]\n", 1, []⟩ :=
  ⟨by decide, by decide⟩

/-- Claim C8 amended: for every non-directory entry whose extension is
allow-listed, not dangerous and not `.zip`, the walk materializes the
entry's bytes and splices `processZipEntry`'s result under the
`--- File: <name> ---` header, counting the entry — where that result is
the UTF-8 decoding of the bytes for the text-extension list and the
`[Binary file: <name> - <size> bytes]` placeholder for every other
allowed format (PDF, Word, spreadsheet, notebook), no format-specific
extractor being invoked; and a nested-archive entry whose bytes fail to
parse as an archive is recorded as a per-entry warning while the walk
continues over the remaining entries. -/
theorem allowed_entry_spliced :
    (∀ (nestingLevel : Nat) (e : ZipEntry) (rest : List ZipEntry)
        (t : String) (n : Nat) (w : List String),
      e.isDirectory = false →
      extLower e.entryName ∉ DANGEROUS_EXTENSIONS →
      isAllowedExtension e.entryName = true →
      extLower e.entryName ≠ ".zip" →
      processZipEntry e ≠ "" →
      processLoop nestingLevel (e :: rest) t n w
        = processLoop nestingLevel rest
            (t ++ "\n--- File: " ++ e.entryName ++ " ---\n" ++ processZipEntry e ++ "\n")
            (n + 1) w)
    ∧ (∀ (nestingLevel : Nat) (name : String) (sz cs : Nat) (bt : String)
        (rest : List ZipEntry) (t : String) (n : Nat) (w : List String),
      extLower name = ".zip" → nestingLevel < MAX_NESTING_DEPTH →
      processLoop nestingLevel (ZipEntry.file name false sz cs bt :: rest) t n w
        = processLoop nestingLevel rest t n
            (w ++ ["Failed to process " ++ name ++ ": "
              ++ "Invalid or unsupported zip format. No END header found"])) := by
  constructor
  · intro nestingLevel e rest t n w hd hdang hallow hzip hne
    simp only [processLoop, hd, Bool.false_eq_true, if_false]
    rw [if_neg hdang]
    rw [if_neg (show ¬(!isAllowedExtension e.entryName) = true by
      rw [hallow]; decide)]
    rw [if_neg hzip, if_neg hne]
  · intro nestingLevel name sz cs bt rest t n w hzip hshallow
    have hallow : isAllowedExtension name = true := by
      simp only [isAllowedExtension, hzip]
      decide
    show processLoop nestingLevel (ZipEntry.file name false sz cs bt :: rest) t n w = _
    simp only [processLoop, ZipEntry.isDirectory, Bool.false_eq_true, if_false,
      ZipEntry.entryName]
    rw [if_neg (show extLower name ∈ DANGEROUS_EXTENSIONS → False by
      rw [hzip]; decide)]
    rw [if_neg (show ¬(!isAllowedExtension name) = true by rw [hallow]; decide)]
    rw [if_pos hzip, if_neg (by omega : ¬ MAX_NESTING_DEPTH ≤ nestingLevel)]
    simp only [processNestedZip]

theorem allowed_entry_spliced_witness :
    ((ZipEntry.file "doc.pdf" false 7 7 "PDFDATA-A").isDirectory = false
      ∧ extLower "doc.pdf" ∉ DANGEROUS_EXTENSIONS
      ∧ isAllowedExtension "doc.pdf" = true
      ∧ extLower "doc.pdf" ≠ ".zip"
      ∧ processZipEntry (ZipEntry.file "doc.pdf" false 7 7 "PDFDATA-A") ≠ "")
    ∧ processLoop 0 [ZipEntry.file "doc.pdf" false 7 7 "PDFDATA-A"] "" 0 []
        = processLoop 0 []
            ("" ++ "\n--- File: " ++ "doc.pdf" ++ " ---\n"
              ++ processZipEntry (ZipEntry.file "doc.pdf" false 7 7 "PDFDATA-A") ++ "\n")
            (0 + 1) [] :=
  ⟨⟨rfl, by decide, by decide, by decide, by decide⟩,
    allowed_entry_spliced.1 0 _ [] "" 0 [] rfl (by decide) (by decide)
      (by decide) (by decide)⟩

/-! ## Claim C9: totality and priority of extension classification -/

/-- Claim C9: extension classification is a total function of the
filename (hence deterministic and non-throwing, including for filenames
with no extension, hidden files, and unicode names); an extension on the
deny-list is rejected with the security message — the deny-list check
takes priority, so an extension on both lists is blocked — and a
filename whose extension is not on the allow-list is never accepted. -/
theorem extension_classification_sound :
    (∀ name, extLower name ∈ BLOCKED_EXTENSIONS →
        fileFilter name
          = .reject ("File type " ++ extLower name ++ " is not allowed for security reasons")
        ∧ isAllowedExtension name = false)
    ∧ (∀ name, extLower name ∉ ALLOWED_EXTENSIONS →
        isAllowedExtension name = false ∧ fileFilter name ≠ .accept)
    ∧ fileFilter "README" ≠ .accept
    ∧ fileFilter ".env" ≠ .accept
    ∧ fileFilter "héllo.txt" = .accept := by
  refine ⟨?_, ?_, by decide, by decide, by decide⟩
  · intro name h
    constructor
    · simp only [fileFilter]
      rw [if_pos h]
    · have hb : decide (extLower name ∈ BLOCKED_EXTENSIONS) = true := decide_eq_true h
      simp [isAllowedExtension, hb]
  · intro name h
    constructor
    · have ha : decide (extLower name ∈ ALLOWED_EXTENSIONS) = false := decide_eq_false h
      simp [isAllowedExtension, ha]
    · simp only [fileFilter]
      by_cases hb : extLower name ∈ BLOCKED_EXTENSIONS
      · rw [if_pos hb]
        intro hc
        cases hc
      · rw [if_neg hb, if_pos h]
        intro hc
        cases hc

theorem extension_classification_sound_witness :
    extLower "setup.exe" ∈ BLOCKED_EXTENSIONS
    ∧ (fileFilter "setup.exe"
        = .reject ("File type " ++ extLower "setup.exe" ++ " is not allowed for security reasons")
      ∧ isAllowedExtension "setup.exe" = false) :=
  ⟨by decide, extension_classification_sound.1 "setup.exe" (by decide)⟩

/-! ## Claim C10: entries whose extraction is empty leave no trace -/

/-- Claim C10: a non-directory, allow-listed, non-archive entry whose
extracted content is the empty string adds no `--- File: <name> ---`
section and is not counted in `filesProcessed`; an archive containing
only such entries, or no entries at all, returns empty combined text
with zero files processed and no error. -/
theorem empty_extraction_skipped :
    (∀ (nestingLevel : Nat) (e : ZipEntry) (rest : List ZipEntry)
        (t : String) (n : Nat) (w : List String),
      e.isDirectory = false →
      extLower e.entryName ∉ DANGEROUS_EXTENSIONS →
      isAllowedExtension e.entryName = true →
      extLower e.entryName ≠ ".zip" →
      processZipEntry e = "" →
      processLoop nestingLevel (e :: rest) t n w = processLoop nestingLevel rest t n w)
    ∧ processZipFile [ZipEntry.file "empty.txt" false 0 0 ""] 0 = .ok ⟨"", 0, []⟩
    ∧ processZipFile [] 0 = .ok ⟨"", 0, []⟩ := by
  refine ⟨?_, by decide, by decide⟩
  intro nestingLevel e rest t n w hd hdang hallow hzip hempty
  simp only [processLoop, hd, Bool.false_eq_true, if_false]
  rw [if_neg hdang]
  rw [if_neg (show ¬(!isAllowedExtension e.entryName) = true by
    rw [hallow]; decide)]
  rw [if_neg hzip, if_pos hempty]

theorem empty_extraction_skipped_witness :
    ((ZipEntry.file "empty.txt" false 0 0 "").isDirectory = false
      ∧ extLower "empty.txt" ∉ DANGEROUS_EXTENSIONS
      ∧ isAllowedExtension "empty.txt" = true
      ∧ extLower "empty.txt" ≠ ".zip"
      ∧ processZipEntry (ZipEntry.file "empty.txt" false 0 0 "") = "")
    ∧ processLoop 0 [ZipEntry.file "empty.txt" false 0 0 ""] "" 0 []
        = processLoop 0 [] "" 0 [] :=
  ⟨⟨rfl, by decide, by decide, by decide, by decide⟩,
    empty_extraction_skipped.1 0 _ [] "" 0 [] rfl (by decide) (by decide)
      (by decide) (by decide)⟩
